import Mathlib

/-!
Shallow embedding of the viewport-driven video-feed playback controller.

The embedding follows the TypeScript sources:
- `src/apps/web/components/VideoFeed.tsx` (the `Web` definitions below):
  intersection-driven reconciliation (`handleIntersection`), the click
  handler (`handleVideoClick`) guarded by the mute flag, and the clamping
  arrow-key seek handlers.
- the richer variant of the component in `src/unnamed/part_000`
  (the `Rich` definitions below): the click handler guarded by
  `hasInteractedRef`, the wrap-around arrow-key seek handlers
  (`SECONDS_PER_JUMP`), and the touch-scrub `onTouchMove` handler.

Times, durations and visibility fractions are modelled as rationals.
JavaScript truthiness is made explicit: an absent or empty `currentSrc`
is falsy, a `duration` of `NaN` (modelled as `none`) or `0` is falsy.
React state updates (`setLoaded`, `setUserPaused`, ...) are modelled as
the functional updates they perform; reads of state inside one callback
see the snapshot the callback closed over, exactly as in React.
-/

namespace Xd

/-- JavaScript truthiness of a nullable string: `null`/`undefined` and the
empty string are falsy. -/
def strTruthy : Option String → Bool
  | none => false
  | some s => s ≠ ""

/-- JavaScript truthiness of a media-element number that may be `NaN`
(modelled as `none`): `NaN` and `0` are falsy. -/
def numTruthy : Option ℚ → Bool
  | none => false
  | some q => q ≠ 0

/-- One record of the ordered video list (`VideoItem` in the source). -/
structure VideoItem where
  id : String
  title : String
  src : String
  hls_url : Option String := none
  thumbnail : Option String := none
  reddit_url : Option String := none
  subreddit : Option String := none
deriving DecidableEq

/-- The observable state of one `HTMLVideoElement`: play/pause state,
playback position, duration (`none` models `NaN`, i.e. unknown metadata),
the resolved source (`none` models an unresolved source) and the muted
flag. -/
structure MediaEl where
  paused : Bool
  currentTime : ℚ
  duration : Option ℚ := none
  currentSrc : Option String := none
  muted : Bool := true
deriving DecidableEq

/-- One `IntersectionObserverEntry` as the callback consumes it: the
`data-index` attribute of its target (`none` when the attribute is
missing), `isIntersecting`, and the intersection fraction. -/
structure IEntry where
  index : Option Nat
  isIntersecting : Bool
  visibleFrac : ℚ
deriving DecidableEq

/-- The component state of `VideoFeed` in
`src/apps/web/components/VideoFeed.tsx`: the item list, the
media-element refs (`videoRefs`, position-aligned with `videos`), the
`loaded` and `userPaused` records, `lastActiveIdRef`, `activeVideoId`
and the global `isMuted` flag. -/
structure FeedState where
  videos : List VideoItem
  els : List (Option MediaEl)
  loaded : List (String × Bool)
  userPaused : List (String × Bool)
  lastActiveId : Option String
  activeVideoId : Option String
  isMuted : Bool
deriving DecidableEq

/-- Reading `rec[key]` from a JS record used as a boolean map: an absent
key is `undefined`, which is falsy. -/
def recGet : List (String × Bool) → String → Bool
  | [], _ => false
  | (k, v) :: rest, id => if id = k then v else recGet rest id

/-- Remove every binding of a key from the record representation. -/
def eraseKey : List (String × Bool) → String → List (String × Bool)
  | [], _ => []
  | (a, b) :: rest, k => if a = k then eraseKey rest k else (a, b) :: eraseKey rest k

/-- Writing `rec[key] = v` (spread update in the source). -/
def recSet (m : List (String × Bool)) (k : String) (v : Bool) : List (String × Bool) :=
  (k, v) :: eraseKey m k

/-- `delete rec[key]`. -/
def recDelete (m : List (String × Bool)) (k : String) : List (String × Bool) :=
  eraseKey m k

/-- `el.play()` (successful resolution). -/
def playEl (el : MediaEl) : MediaEl :=
  { el with paused := false }

/-- `el.pause()`. -/
def pauseEl (el : MediaEl) : MediaEl :=
  { el with paused := true }

/-- `el.pause(); el.currentTime = 0` — pause and reset, as the
reconciliation applies to every non-active element. -/
def pauseResetEl (el : MediaEl) : MediaEl :=
  { el with paused := true, currentTime := 0 }

/-- The entry loop of `handleIntersection` in
`src/apps/web/components/VideoFeed.tsx` (lines 76-88): starting from
`activeId = null`, every entry whose `data-index` resolves to an existing
video and which `isIntersecting` with fraction `> 0.6` overwrites
`activeId` with that video's id.  The threshold `0.6` is the rational
`mkRat 6 10`.  `pickStep` is the body of the `entries.forEach`. -/
def pickStep (videos : List VideoItem) (activeId : Option String) (e : IEntry) :
    Option String :=
  match e.index with
  | none => activeId
  | some i =>
    match videos[i]? with
    | none => activeId
    | some video =>
      if e.isIntersecting ∧ e.visibleFrac > mkRat 6 10 then some video.id
      else activeId

/-- The entry loop of `handleIntersection` (lines 76-88): fold `pickStep`
over the batch starting from `activeId = null`. -/
def pickActive (videos : List VideoItem) (entries : List IEntry) : Option String :=
  entries.foldl (pickStep videos) none

/-- An entry qualifies as an activation candidate: its index attribute is
present, names an existing video, and it is intersecting with fraction
above the threshold. -/
def qualifies (videos : List VideoItem) (e : IEntry) : Bool :=
  match e.index with
  | none => false
  | some i =>
    match videos[i]? with
    | none => false
    | some _ => e.isIntersecting ∧ e.visibleFrac > mkRat 6 10

/-- The video id an entry resolves to through its index attribute. -/
def entryId (videos : List VideoItem) (e : IEntry) : Option String :=
  (e.index.bind (fun i => videos[i]?)).map (fun v => v.id)

/-- `videos.findIndex(v => v.id === activeId)`: the JS result, `-1` when
the id is absent. -/
def activeIndexOf (videos : List VideoItem) (activeId : String) : Int :=
  match videos.findIdx? (fun v => v.id == activeId) with
  | some i => (i : Int)
  | none => -1

/-- The body of the `adjacentIndices.forEach` inside `setLoaded`
(lines 104-113): mark the id of the video at `idx` loaded unless it
already is.  A JS array read at a negative index yields `undefined` and
is skipped. -/
def markLoadedStep (videos : List VideoItem) (next : List (String × Bool)) (idx : Int) :
    List (String × Bool) :=
  if 0 ≤ idx then
    match videos[idx.toNat]? with
    | some vid => if recGet next vid.id = false then recSet next vid.id true else next
    | none => next
  else next

/-- The "pause and reset all non-active videos" loop (lines 125-138),
`videoRefs.current.forEach((r, index) => ...)`: an element is paused and
rewound to 0 when the video at its index exists, has a truthy id, and
that id differs from `activeId`. -/
def pauseOthers (videos : List VideoItem) (activeId : String) :
    Nat → List (Option MediaEl) → List (Option MediaEl)
  | _, [] => []
  | i, oel :: rest =>
    (match oel with
     | none => none
     | some v =>
       match videos[i]? with
       | some vd =>
         if vd.id ≠ "" ∧ vd.id ≠ activeId then some (pauseResetEl v) else some v
       | none => some v) :: pauseOthers videos activeId (i + 1) rest

/-- The "no entry above threshold" branch (lines 154-162): pause every
element that is currently playing; none of the state variables change. -/
def pauseAllPlaying (els : List (Option MediaEl)) : List (Option MediaEl) :=
  els.map
    (fun oel =>
      match oel with
      | some el => if el.paused = false then some (pauseEl el) else some el
      | none => none)

/-- The `if (activeId)` branch of `handleIntersection` (lines 90-153):
update `lastActiveIdRef` and `activeVideoId`, mark the active and
adjacent videos loaded, clear a stale `userPaused` flag when the id
changed, pause and reset every non-active element, then play the active
element — the play guard reads the `userPaused` map the callback closed
over, i.e. the pre-update `s.userPaused`. -/
def handleActive (s : FeedState) (activeId : String) : FeedState :=
  let isNewActive := s.lastActiveId ≠ some activeId
  let activeIndex := activeIndexOf s.videos activeId
  let adjacentIndices :=
    [activeIndex - 1, activeIndex, activeIndex + 1].filter
      (fun idx => 0 ≤ idx ∧ idx < (s.videos.length : Int))
  let loaded1 := adjacentIndices.foldl (markLoadedStep s.videos) s.loaded
  let userPaused1 :=
    if isNewActive then
      if recGet s.userPaused activeId = false then s.userPaused
      else recDelete s.userPaused activeId
    else s.userPaused
  let els1 := pauseOthers s.videos activeId 0 s.els
  let els2 :=
    if activeIndex < 0 then els1
    else
      match els1[activeIndex.toNat]? with
      | some (some el) =>
        if recGet s.userPaused activeId = false then
          let el1 := { el with muted := s.isMuted }
          if strTruthy el1.currentSrc then els1.set activeIndex.toNat (some (playEl el1))
          else els1.set activeIndex.toNat (some el1)
        else els1
      | _ => els1
  { s with
    loaded := loaded1
    userPaused := userPaused1
    lastActiveId := some activeId
    activeVideoId := some activeId
    els := els2 }

/-- `handleIntersection` of `src/apps/web/components/VideoFeed.tsx`
(lines 75-163).  The branch test `if (activeId)` is JS truthiness, so an
empty-string id falls through to the pause-everything branch. -/
def handleIntersection (s : FeedState) (entries : List IEntry) : FeedState :=
  match pickActive s.videos entries with
  | some activeId =>
    if activeId = "" then { s with els := pauseAllPlaying s.els }
    else handleActive s activeId
  | none => { s with els := pauseAllPlaying s.els }

/-- `handleVideoClick` of `src/apps/web/components/VideoFeed.tsx`
(lines 37-70).  A missing element returns immediately.  While `isMuted`
is set, the click clears the global mute flag and plays the element when
it is paused and has a resolved source (the `.then` of the successful
play records `userPaused[id] = false`); it is not interpreted as a pause
toggle.  Afterwards a click is a pure play/pause toggle that records the
user's intent in `userPaused`. -/
def handleVideoClick (s : FeedState) (id : String) (index : Nat) : FeedState :=
  match s.els[index]? with
  | some (some el) =>
    if s.isMuted then
      let s1 := { s with isMuted := false }
      if el.paused ∧ strTruthy el.currentSrc then
        { s1 with
          els := s1.els.set index (some (playEl el))
          userPaused := recSet s1.userPaused id false }
      else s1
    else
      if el.paused then
        if strTruthy el.currentSrc then
          { s with
            els := s.els.set index (some (playEl el))
            userPaused := recSet s.userPaused id false }
        else s
      else
        { s with
          els := s.els.set index (some (pauseEl el))
          userPaused := recSet s.userPaused id true }
  | _ => s

/-- The `onClick` handler of slide `i` calls
`handleVideoClick(video.id, index)` for the video rendered at that
index. -/
def clickAt (s : FeedState) (i : Nat) : FeedState :=
  match s.videos[i]? with
  | some v => handleVideoClick s v.id i
  | none => s

/-- The space-key branch of `handleKeyDown` (lines 228-235): resolve the
active index from `activeVideoId` and toggle play/pause on the active
element when both exist (`videoRefs.current[-1]` is `undefined`, so a
missing id does nothing). -/
def clickActive (s : FeedState) : FeedState :=
  match s.activeVideoId with
  | some id =>
    match s.videos.findIdx? (fun v => v.id == id) with
    | some a =>
      match s.els[a]? with
      | some (some _) => handleVideoClick s id a
      | _ => s
    | none => s
  | none => s

/-- An event of the modelled runs: a batch of intersection entries, or a
playback-control interaction (click or space) on the active item. -/
inductive Event where
  | vis (entries : List IEntry)
  | clickActiveItem
deriving DecidableEq

/-- One event step of the component. -/
def step (s : FeedState) : Event → FeedState
  | Event.vis entries => handleIntersection s entries
  | Event.clickActiveItem => clickActive s

/-- A run of the component over a sequence of events. -/
def run (s : FeedState) (evs : List Event) : FeedState :=
  evs.foldl step s

/-! ### Arrow-key seek handlers

`src/apps/web/components/VideoFeed.tsx` clamps (lines 252-271);
the richer variant in `src/unnamed/part_000` wraps around the duration
(lines 396-421, `SECONDS_PER_JUMP`). -/

/-- `const SECONDS_PER_JUMP = 5` of the richer variant. -/
def SECONDS_PER_JUMP : ℚ := 5

/-- The `arrowleft` case of `handleKeyDown` in
`src/apps/web/components/VideoFeed.tsx` (lines 252-261):
`currentTime = Math.max(0, currentTime - 5)` behind the source guard. -/
def arrowLeftWeb (el : MediaEl) : MediaEl :=
  if strTruthy el.currentSrc then { el with currentTime := max 0 (el.currentTime - 5) }
  else el

/-- The `arrowright` case of `handleKeyDown` in
`src/apps/web/components/VideoFeed.tsx` (lines 262-271):
`currentTime = Math.min(duration ?? 0, currentTime + 5)`.  `duration` is
a number, so `?? 0` never fires; with unknown metadata it is `NaN`,
`Math.min` propagates the `NaN`, and the assignment throws inside the
`try`/`catch`, leaving the element unchanged. -/
def arrowRightWeb (el : MediaEl) : MediaEl :=
  if strTruthy el.currentSrc then
    match el.duration with
    | some d => { el with currentTime := min d (el.currentTime + 5) }
    | none => el
  else el

/-- The `arrowleft` case of the richer variant's `handleKeyDown`
(`src/unnamed/part_000` lines 396-407): behind the source and duration
truthiness guards, step back by `SECONDS_PER_JUMP` and wrap a negative
result around the duration. -/
def arrowLeftRich (el : MediaEl) : MediaEl :=
  match el.duration with
  | some d =>
    if strTruthy el.currentSrc ∧ d ≠ 0 then
      let newTime := el.currentTime - SECONDS_PER_JUMP
      { el with currentTime := if newTime < 0 then d + newTime else newTime }
    else el
  | none => el

/-- The `arrowright` case of the richer variant's `handleKeyDown`
(`src/unnamed/part_000` lines 409-421): step forward by
`SECONDS_PER_JUMP` and wrap a result past the duration back past zero. -/
def arrowRightRich (el : MediaEl) : MediaEl :=
  match el.duration with
  | some d =>
    if strTruthy el.currentSrc ∧ d ≠ 0 then
      let newTime := el.currentTime + SECONDS_PER_JUMP
      { el with currentTime := if newTime > d then newTime - d else newTime }
    else el
  | none => el

/-! ### The richer variant's click handler (`src/unnamed/part_000` lines 169-203)

Its first-interaction guard is the `hasInteractedRef` ref rather than the
mute flag itself. -/

/-- The state the richer variant's click handler touches:
`hasInteractedRef`, `isMuted`, the element refs and the `userPaused`
record. -/
structure RichState where
  hasInteracted : Bool
  isMuted : Bool
  els : List (Option MediaEl)
  userPaused : List (String × Bool)
deriving DecidableEq

/-- The mount-time state of the richer variant: `isMuted` starts `true`
and `hasInteractedRef.current` starts `false`. -/
def richInit (els : List (Option MediaEl)) : RichState :=
  { hasInteracted := false, isMuted := true, els := els, userPaused := [] }

/-- `handleVideoClick` of the richer variant (`src/unnamed/part_000`
lines 169-203): the first ever interaction sets `hasInteractedRef`,
clears the global mute flag and plays the element when it is paused with
a resolved source — it is not interpreted as a pause toggle.  Every
later interaction is a pure play/pause toggle recording `userPaused` and
leaving the mute flag alone. -/
def handleVideoClickRich (s : RichState) (id : String) (index : Nat) : RichState :=
  match s.els[index]? with
  | some (some el) =>
    if s.hasInteracted = false then
      let s1 := { s with hasInteracted := true, isMuted := false }
      if el.paused ∧ strTruthy el.currentSrc then
        { s1 with
          els := s1.els.set index (some (playEl el))
          userPaused := recSet s1.userPaused id false }
      else s1
    else
      if el.paused then
        if strTruthy el.currentSrc then
          { s with
            els := s.els.set index (some (playEl el))
            userPaused := recSet s.userPaused id false }
        else s
      else
        { s with
          els := s.els.set index (some (pauseEl el))
          userPaused := recSet s.userPaused id true }
  | _ => s

/-- A sequence of clicks `(id, index)` against the richer variant. -/
def runRichClicks (s : RichState) (evs : List (String × Nat)) : RichState :=
  evs.foldl (fun t e => handleVideoClickRich t e.1 e.2) s

/-! ### Touch scrubbing (`src/unnamed/part_000` lines 552-598) -/

/-- A touch point (`touch.clientX` / `touch.clientY`). -/
structure TouchPt where
  x : ℚ
  y : ℚ
deriving DecidableEq

/-- `touchStartRef.current`: the coordinates recorded on touch-start,
the playback position at that moment and the slide index. -/
structure TouchStartInfo where
  x : ℚ
  y : ℚ
  time : ℚ
  videoIndex : Nat
deriving DecidableEq

/-- `videoEl.getBoundingClientRect()` — the part the handler reads. -/
structure Rect where
  left : ℚ
  width : ℚ
deriving DecidableEq

/-- `onTouchMove` of the richer variant (`src/unnamed/part_000` lines
564-590).  Returns `none` when the handler writes nothing (missing
start/touch/element, unknown duration, or movement still below the
scrub-activation gates) and `some (t, scrub)` when it seeks the element
to `t` with the scrub flag set to `scrub`.  The fraction is
`Math.max(0, Math.min(1, relativeX / rect.width))`. -/
def onTouchMove (touchStart : Option TouchStartInfo) (isScrubbing : Bool) (index : Nat)
    (touch : Option TouchPt) (videoEl : Option MediaEl) (rect : Rect) :
    Option (ℚ × Bool) :=
  match touchStart with
  | none => none
  | some ts =>
    if ts.videoIndex ≠ index then none
    else
      match touch, videoEl with
      | some touch, some el =>
        if numTruthy el.duration = false then none
        else
          let d := el.duration.getD 0
          let deltaX := touch.x - ts.x
          let deltaY := touch.y - ts.y
          let gated :=
            if isScrubbing = false then
              if |deltaX| < 10 ∧ |deltaY| < 10 then false
              else if |deltaX| ≤ |deltaY| then false
              else true
            else true
          if gated then
            let relativeX := touch.x - rect.left
            let fraction := max 0 (min 1 (relativeX / rect.width))
            some (fraction * d, true)
          else none
      | _, _ => none

/-! ### Record lemmas -/

theorem recGet_eraseKey_ne (k id : String) (h : id ≠ k) (m : List (String × Bool)) :
    recGet (eraseKey m k) id = recGet m id := by
  induction m with
  | nil => rfl
  | cons p rest ih =>
    obtain ⟨a, b⟩ := p
    by_cases ha : a = k
    · have hia : id ≠ a := fun hh => h (hh.trans ha)
      simp [eraseKey, ha, recGet, hia, h, ih]
    · by_cases hia : id = a
      · simp [eraseKey, ha, recGet, hia]
      · simp [eraseKey, ha, recGet, hia, ih]

theorem recGet_eraseKey_self (k : String) (m : List (String × Bool)) :
    recGet (eraseKey m k) k = false := by
  induction m with
  | nil => rfl
  | cons p rest ih =>
    obtain ⟨a, b⟩ := p
    by_cases ha : a = k
    · simp [eraseKey, ha, ih]
    · have hka : k ≠ a := fun hh => ha hh.symm
      simp [eraseKey, ha, recGet, hka, ih]

theorem recGet_recSet (m : List (String × Bool)) (k id : String) (v : Bool) :
    recGet (recSet m k v) id = if id = k then v else recGet m id := by
  by_cases h : id = k
  · simp [recSet, recGet, h]
  · simp [recSet, recGet, h, recGet_eraseKey_ne k id h]

theorem recGet_recDelete (m : List (String × Bool)) (k id : String) :
    recGet (recDelete m k) id = if id = k then false else recGet m id := by
  by_cases h : id = k
  · simp [recDelete, h, recGet_eraseKey_self]
  · simp [recDelete, h, recGet_eraseKey_ne k id h]

/-! ### Characterising the active-candidate selection -/

theorem pickStep_of_qualifies (videos : List VideoItem) (acc : Option String) (e : IEntry)
    (h : qualifies videos e = true) : pickStep videos acc e = entryId videos e := by
  unfold qualifies at h
  cases hi : e.index with
  | none => simp [hi] at h
  | some i =>
    simp only [hi] at h
    cases hv : videos[i]? with
    | none => simp [hv] at h
    | some video =>
      simp only [hv] at h
      have hcond := of_decide_eq_true h
      simp [pickStep, entryId, hi, hv, hcond.1, hcond.2]

theorem pickStep_of_not_qualifies (videos : List VideoItem) (acc : Option String) (e : IEntry)
    (h : qualifies videos e = false) : pickStep videos acc e = acc := by
  unfold qualifies at h
  cases hi : e.index with
  | none => simp [pickStep, hi]
  | some i =>
    simp only [hi] at h
    cases hv : videos[i]? with
    | none => simp [pickStep, hi, hv]
    | some video =>
      simp only [hv] at h
      have hcond := of_decide_eq_false h
      simp [pickStep, hi, hv, hcond]

theorem pickFold_eq_last (videos : List VideoItem) :
    ∀ (entries : List IEntry) (acc : Option String),
      entries.foldl (pickStep videos) acc =
        ((entries.filter (qualifies videos)).getLast?).elim acc (entryId videos) := by
  intro entries
  induction entries with
  | nil => intro acc; rfl
  | cons e rest ih =>
    intro acc
    rw [List.foldl_cons, ih (pickStep videos acc e), List.filter_cons]
    cases hq : qualifies videos e with
    | false =>
      simp only [Bool.false_eq_true, if_false]
      rw [pickStep_of_not_qualifies videos acc e hq]
    | true =>
      simp only [if_true]
      rw [List.getLast?_cons]
      cases hlast : (rest.filter (qualifies videos)).getLast? with
      | none =>
        simp only [hlast, Option.getD_none, Option.elim_some, Option.elim_none]
        rw [pickStep_of_qualifies videos acc e hq]
      | some x => simp only [hlast, Option.getD_some, Option.elim_some]

theorem pickActive_eq_none (videos : List VideoItem) (entries : List IEntry)
    (h : ∀ e ∈ entries, qualifies videos e = false) :
    pickActive videos entries = none := by
  unfold pickActive
  rw [pickFold_eq_last]
  have hnil : entries.filter (qualifies videos) = [] := by
    rw [List.filter_eq_nil_iff]
    intro a ha
    simp [h a ha]
  rw [hnil]
  rfl

/-! ### Shared concrete fixtures -/

/-- A concrete item with id `"a"`. -/
def itemA : VideoItem := { id := "a", title := "A", src := "sa" }

/-- A concrete item with id `"b"`. -/
def itemB : VideoItem := { id := "b", title := "B", src := "sb" }

/-- A paused element with a resolved source and a 10-second duration. -/
def elPaused : MediaEl :=
  { paused := true, currentTime := 0, duration := some 10, currentSrc := some "u",
    muted := true }

/-- An entry for slide 0 at 95% visibility. -/
def entryHi : IEntry := { index := some 0, isIntersecting := true, visibleFrac := mkRat 19 20 }

/-- An entry for slide 1 at 70% visibility. -/
def entryLo : IEntry := { index := some 1, isIntersecting := true, visibleFrac := mkRat 7 10 }

/-! ### C4 -/

/-- C4 (amended): per batch the selection yields at most one candidate —
it equals the id resolved by the *last* entry of the batch that meets the
threshold (`none` when no entry qualifies) — which is not in general the
entry with the highest intersection fraction. -/
theorem pickActive_last_qualifying (videos : List VideoItem) (entries : List IEntry) :
    pickActive videos entries =
      ((entries.filter (qualifies videos)).getLast?).elim none (entryId videos) := by
  unfold pickActive
  exact pickFold_eq_last videos entries none

/-- C4 counterexample: two entries both meet the threshold; the first has
the strictly higher intersection fraction and resolves to item `"a"`, yet
the batch selects `"b"`, the last qualifying entry — so the
highest-visibility container does not become the active item. -/
theorem pickActive_not_highest_frac :
    qualifies [itemA, itemB] entryHi = true
    ∧ qualifies [itemA, itemB] entryLo = true
    ∧ entryHi.visibleFrac > entryLo.visibleFrac
    ∧ entryId [itemA, itemB] entryHi = some "a"
    ∧ pickActive [itemA, itemB] [entryHi, entryLo] = some "b"
    ∧ ("b" : String) ≠ "a" := by decide

/-! ### C8 -/

/-- C8: when no entry of the batch meets the activation threshold, the
reconciliation leaves both the active id and the last-active ref exactly
as they were — it does not clear them to `none`. -/
theorem no_candidate_keeps_active (s : FeedState) (entries : List IEntry)
    (h : ∀ e ∈ entries, qualifies s.videos e = false) :
    (handleIntersection s entries).activeVideoId = s.activeVideoId
    ∧ (handleIntersection s entries).lastActiveId = s.lastActiveId := by
  have hp := pickActive_eq_none s.videos entries h
  unfold handleIntersection
  rw [hp]
  exact ⟨rfl, rfl⟩

/-- A state with an established active item, used to instantiate C8. -/
def stateC8 : FeedState :=
  { videos := [itemA], els := [some elPaused], loaded := [("a", true)],
    userPaused := [], lastActiveId := some "a", activeVideoId := some "a",
    isMuted := false }

/-- A below-threshold entry batch for the C8 witness. -/
def entriesBelow : List IEntry :=
  [{ index := some 0, isIntersecting := true, visibleFrac := mkRat 4 10 }]

/-- C8 witness: a concrete below-threshold batch leaves the concrete
active id `"a"` in place. -/
theorem no_candidate_keeps_active_witness :
    (∀ e ∈ entriesBelow, qualifies stateC8.videos e = false)
    ∧ ((handleIntersection stateC8 entriesBelow).activeVideoId = stateC8.activeVideoId
      ∧ (handleIntersection stateC8 entriesBelow).lastActiveId = stateC8.lastActiveId) :=
  ⟨by decide, no_candidate_keeps_active stateC8 entriesBelow (by decide)⟩

/-! ### C7 -/

theorem markLoadedStep_mono (videos : List VideoItem) (m : List (String × Bool)) (idx : Int)
    (id : String) (h : recGet m id = true) :
    recGet (markLoadedStep videos m idx) id = true := by
  unfold markLoadedStep
  by_cases h0 : (0 : Int) ≤ idx
  · simp only [h0, if_true]
    cases hv : videos[idx.toNat]? with
    | none => exact h
    | some vid =>
      by_cases hg : recGet m vid.id = false
      · simp only [hg, if_true]
        rw [recGet_recSet]
        by_cases hid : id = vid.id <;> simp [hid, h]
      · simp [hg, h]
  · simp [h0, h]

theorem foldl_markLoadedStep_mono (videos : List VideoItem) (idxs : List Int)
    (m : List (String × Bool)) (id : String) (h : recGet m id = true) :
    recGet (idxs.foldl (markLoadedStep videos) m) id = true := by
  induction idxs generalizing m with
  | nil => exact h
  | cons i rest ih => exact ih _ (markLoadedStep_mono videos m i id h)

theorem handleActive_loaded_mono (s : FeedState) (a id : String)
    (h : recGet s.loaded id = true) : recGet (handleActive s a).loaded id = true :=
  foldl_markLoadedStep_mono s.videos _ s.loaded id h

theorem handleVideoClick_frame (s : FeedState) (id : String) (i : Nat) :
    (handleVideoClick s id i).loaded = s.loaded
    ∧ (handleVideoClick s id i).videos = s.videos
    ∧ (handleVideoClick s id i).activeVideoId = s.activeVideoId
    ∧ (handleVideoClick s id i).lastActiveId = s.lastActiveId := by
  unfold handleVideoClick
  repeat' split
  all_goals exact ⟨rfl, rfl, rfl, rfl⟩

theorem clickActive_loaded (s : FeedState) : (clickActive s).loaded = s.loaded := by
  unfold clickActive
  repeat' split
  all_goals first
    | rfl
    | exact (handleVideoClick_frame _ _ _).1

/-- C7: `LoadedSet` only grows: any id marked loaded before a visibility
or interaction event is still marked loaded after it. -/
theorem loaded_monotone (s : FeedState) (e : Event) (id : String)
    (h : recGet s.loaded id = true) : recGet (step s e).loaded id = true := by
  cases e with
  | vis entries =>
    show recGet (handleIntersection s entries).loaded id = true
    unfold handleIntersection
    cases hp : pickActive s.videos entries with
    | none => exact h
    | some a =>
      by_cases ha : a = ""
      · simp only [ha, if_true]
        exact h
      · simp only [ha, if_false]
        exact handleActive_loaded_mono s a id h
  | clickActiveItem =>
    show recGet (clickActive s).loaded id = true
    rw [clickActive_loaded]
    exact h

/-- C7 witness: the concrete loaded id `"a"` survives a concrete
visibility event. -/
theorem loaded_monotone_witness :
    recGet stateC8.loaded "a" = true
    ∧ recGet (step stateC8 (Event.vis entriesBelow)).loaded "a" = true :=
  ⟨by decide, loaded_monotone stateC8 (Event.vis entriesBelow) "a" (by decide)⟩

/-! ### C6 -/

theorem findIdx_of_nodup (videos : List VideoItem)
    (hnodup : (videos.map (fun v => v.id)).Nodup) (K : Nat) (vK : VideoItem)
    (hK : videos[K]? = some vK) :
    videos.findIdx? (fun v => v.id == vK.id) = some K := by
  induction videos generalizing K with
  | nil => simp at hK
  | cons w rest ih =>
    cases K with
    | zero =>
      simp only [List.getElem?_cons_zero, Option.some.injEq] at hK
      subst hK
      simp [List.findIdx?_cons]
    | succ k =>
      simp only [List.getElem?_cons_succ] at hK
      have hmem : vK ∈ rest := by
        obtain ⟨hlt, hget⟩ := List.getElem?_eq_some.mp hK
        exact hget ▸ List.getElem_mem hlt
      have hw : w.id ≠ vK.id := by
        intro hcontra
        have : vK.id ∈ rest.map (fun v => v.id) := List.mem_map_of_mem _ hmem
        rw [List.map_cons, List.nodup_cons] at hnodup
        exact hnodup.1 (hcontra ▸ this)
      have hrest : rest.findIdx? (fun v => v.id == vK.id) = some k :=
        ih (List.nodup_cons.mp (by rw [List.map_cons] at hnodup; exact hnodup)).2 k hK
      rw [List.findIdx?_cons, if_neg (by simp [hw]), List.findIdx?_succ, hrest]
      rfl

theorem activeIndexOf_eq (videos : List VideoItem)
    (hnodup : (videos.map (fun v => v.id)).Nodup) (K : Nat) (vK : VideoItem)
    (hK : videos[K]? = some vK) :
    activeIndexOf videos vK.id = (K : Int) := by
  unfold activeIndexOf
  rw [findIdx_of_nodup videos hnodup K vK hK]

theorem markLoadedStep_marks (videos : List VideoItem) (m : List (String × Bool))
    (J : Nat) (vJ : VideoItem) (hJ : videos[J]? = some vJ) :
    recGet (markLoadedStep videos m (J : Int)) vJ.id = true := by
  unfold markLoadedStep
  simp only [Int.natCast_nonneg, if_true, Int.toNat_natCast, hJ]
  by_cases hg : recGet m vJ.id = false
  · simp only [hg, if_true]
    rw [recGet_recSet]
    simp
  · simp only [hg, Bool.false_eq_true, if_false]
    exact eq_true_of_ne_false hg

theorem foldl_markLoadedStep_marks (videos : List VideoItem) (idxs : List Int)
    (m : List (String × Bool)) (J : Nat) (vJ : VideoItem)
    (hJ : videos[J]? = some vJ) (hmem : (J : Int) ∈ idxs) :
    recGet (idxs.foldl (markLoadedStep videos) m) vJ.id = true := by
  induction idxs generalizing m with
  | nil => cases hmem
  | cons i rest ih =>
    rcases List.mem_cons.mp hmem with heq | hmem2
    · have hstep : recGet (markLoadedStep videos m i) vJ.id = true := by
        rw [← heq]
        exact markLoadedStep_marks videos m J vJ hJ
      exact foldl_markLoadedStep_mono videos rest _ vJ.id hstep
    · exact ih _ hmem2

/-- C6: when the batch selects the item at position `K`, the
reconciliation marks the items at positions `K-1`, `K` and `K+1`
(clipped to the list bounds) as loaded. -/
theorem window_marked_loaded (s : FeedState) (entries : List IEntry) (K : Nat)
    (vK : VideoItem)
    (hnodup : (s.videos.map (fun v => v.id)).Nodup)
    (hK : s.videos[K]? = some vK)
    (hid : vK.id ≠ "")
    (hpick : pickActive s.videos entries = some vK.id) :
    ∀ (J : Nat) (vJ : VideoItem), s.videos[J]? = some vJ →
      (J + 1 = K ∨ J = K ∨ J = K + 1) →
      recGet (handleIntersection s entries).loaded vJ.id = true := by
  intro J vJ hJ hwin
  have hJlt : J < s.videos.length := (List.getElem?_eq_some.mp hJ).1
  unfold handleIntersection
  simp only [hpick, hid, if_false]
  simp only [handleActive, activeIndexOf_eq s.videos hnodup K vK hK]
  apply foldl_markLoadedStep_marks s.videos _ _ J vJ hJ
  apply List.mem_filter.mpr
  constructor
  · have hcases : (J : Int) = (K : Int) - 1 ∨ (J : Int) = (K : Int)
        ∨ (J : Int) = (K : Int) + 1 := by omega
    rcases hcases with hc | hc | hc <;> simp [hc]
  · have h0 : (0 : Int) ≤ (J : Int) := Int.natCast_nonneg J
    have h1 : (J : Int) < (s.videos.length : Int) := by exact_mod_cast hJlt
    exact decide_eq_true ⟨h0, h1⟩

/-- A two-item state with nothing loaded yet, used to instantiate C6. -/
def stateC6 : FeedState :=
  { videos := [itemA, itemB], els := [some elPaused, some elPaused],
    loaded := [], userPaused := [], lastActiveId := none, activeVideoId := none,
    isMuted := true }

/-- C6 witness: selecting position 0 of a two-item list marks positions
0 and 1 loaded. -/
theorem window_marked_loaded_witness :
    ((stateC6.videos.map (fun v => v.id)).Nodup
      ∧ stateC6.videos[0]? = some itemA
      ∧ itemA.id ≠ ""
      ∧ pickActive stateC6.videos [entryHi] = some itemA.id)
    ∧ (∀ (J : Nat) (vJ : VideoItem), stateC6.videos[J]? = some vJ →
        (J + 1 = 0 ∨ J = 0 ∨ J = 0 + 1) →
        recGet (handleIntersection stateC6 [entryHi]).loaded vJ.id = true) :=
  ⟨⟨by decide, by decide, by decide, by decide⟩,
    window_marked_loaded stateC6 [entryHi] 0 itemA (by decide) (by decide) (by decide)
      (by decide)⟩

/-! ### C2 -/

/-- C2 (amended): the circular wrap-around seek holds for the richer
variant's keyboard handler (`src/unnamed/part_000`): with a resolved
source and truthy duration `d`, seek-back lands on `d + (t - 5)` when
`t - 5 < 0` and on `t - 5` otherwise, and seek-forward lands on
`(t + 5) - d` when `t + 5 > d` and on `t + 5` otherwise.  The handler in
`src/apps/web/components/VideoFeed.tsx` instead clamps (see the
counterexample). -/
theorem rich_seek_wraps (el : MediaEl) (d : ℚ)
    (hd : el.duration = some d) (hdz : d ≠ 0)
    (hsrc : strTruthy el.currentSrc = true) :
    (arrowLeftRich el).currentTime =
      (if el.currentTime - 5 < 0 then d + (el.currentTime - 5) else el.currentTime - 5)
    ∧ (arrowRightRich el).currentTime =
      (if el.currentTime + 5 > d then (el.currentTime + 5) - d else el.currentTime + 5) := by
  constructor
  · simp [arrowLeftRich, hd, hsrc, hdz, SECONDS_PER_JUMP]
  · simp [arrowRightRich, hd, hsrc, hdz, SECONDS_PER_JUMP]

/-- A playing element at position 2s of a 10s clip. -/
def elAt2 : MediaEl :=
  { paused := false, currentTime := 2, duration := some 10, currentSrc := some "u",
    muted := false }

/-- A playing element at position 8s of a 10s clip. -/
def elAt8 : MediaEl :=
  { paused := false, currentTime := 8, duration := some 10, currentSrc := some "u",
    muted := false }

/-- C2 witness: the richer handler wraps 2s − 5s to 7s and 8s + 5s to 3s
on a 10-second item. -/
theorem rich_seek_wraps_witness :
    (elAt2.duration = some 10 ∧ (10 : ℚ) ≠ 0 ∧ strTruthy elAt2.currentSrc = true)
    ∧ (arrowLeftRich elAt2).currentTime = 7
    ∧ (arrowRightRich elAt8).currentTime = 3 := by
  refine ⟨⟨rfl, by norm_num, rfl⟩, ?_, ?_⟩
  · rw [(rich_seek_wraps elAt2 10 rfl (by norm_num) rfl).1]
    norm_num [elAt2]
  · rw [(rich_seek_wraps elAt8 10 rfl (by norm_num) rfl).2]
    norm_num [elAt8]

/-- C2 counterexample: the apps/web handler clamps instead of wrapping —
seek-back from 2s of a 10s item yields 0s, not the claimed 7s, and
seek-forward from 8s yields 10s, not the claimed 3s. -/
theorem web_seek_clamps :
    (arrowLeftWeb elAt2).currentTime = 0
    ∧ (arrowLeftWeb elAt2).currentTime ≠ 7
    ∧ (arrowRightWeb elAt8).currentTime = 10
    ∧ (arrowRightWeb elAt8).currentTime ≠ 3 := by
  have h1 : (arrowLeftWeb elAt2).currentTime = 0 := by
    norm_num [arrowLeftWeb, elAt2, strTruthy]
    decide
  have h2 : (arrowRightWeb elAt8).currentTime = 10 := by
    norm_num [arrowRightWeb, elAt8, strTruthy]
    decide
  refine ⟨h1, ?_, h2, ?_⟩
  · rw [h1]; norm_num
  · rw [h2]; norm_num

/-! ### C10 -/

/-- C10: whenever the touch-scrub move handler seeks, the position it
writes is the clamped fraction of the duration,
`max 0 (min 1 (relativeX / width)) * d`, and therefore lies in
`[0, d]` — including touches left or right of the element's box. -/
theorem scrub_seek_in_bounds (ts : TouchStartInfo) (scrubbing : Bool) (i : Nat)
    (touch : TouchPt) (el : MediaEl) (rect : Rect) (d t2 : ℚ) (b2 : Bool)
    (hd : el.duration = some d) (hdpos : 0 < d) (hw : 0 < rect.width)
    (hres : onTouchMove (some ts) scrubbing i (some touch) (some el) rect
      = some (t2, b2)) :
    t2 = max 0 (min 1 ((touch.x - rect.left) / rect.width)) * d
    ∧ 0 ≤ t2 ∧ t2 ≤ d := by
  have hnt : numTruthy el.duration = true := by
    rw [hd]
    simp only [numTruthy]
    exact decide_eq_true (ne_of_gt hdpos)
  unfold onTouchMove at hres
  dsimp only at hres
  by_cases hidx : ts.videoIndex ≠ i
  · rw [if_pos hidx] at hres
    cases hres
  · rw [if_neg hidx] at hres
    rw [hnt] at hres
    simp only [Bool.true_eq_false, if_false] at hres
    rw [hd] at hres
    simp only [Option.getD_some] at hres
    repeat' split at hres
    all_goals cases hres
    all_goals refine ⟨rfl, ?_, ?_⟩
    all_goals first
      | exact mul_nonneg (le_max_left 0 _) (le_of_lt hdpos)
      | exact mul_le_of_le_one_left (le_of_lt hdpos)
          (max_le (by norm_num) (min_le_left 1 _))

/-- A touch-start record at the origin for slide 0. -/
def tsW : TouchStartInfo := { x := 0, y := 0, time := 0, videoIndex := 0 }

/-- A touch point at `x = 50`. -/
def touchW : TouchPt := { x := 50, y := 0 }

/-- A bounding box from `0` with width `100`. -/
def rectW : Rect := { left := 0, width := 100 }

/-- C10 witness: a scrub move at the middle of a 100-pixel box on a
10-second element writes position 5, the clamped fraction of the
duration, inside `[0, 10]`. -/
theorem scrub_seek_in_bounds_witness :
    (elPaused.duration = some 10 ∧ (0 : ℚ) < 10 ∧ (0 : ℚ) < rectW.width
      ∧ onTouchMove (some tsW) true 0 (some touchW) (some elPaused) rectW
          = some (5, true))
    ∧ ((5 : ℚ) = max 0 (min 1 ((touchW.x - rectW.left) / rectW.width)) * 10
      ∧ (0 : ℚ) ≤ 5 ∧ (5 : ℚ) ≤ 10) := by
  have hres : onTouchMove (some tsW) true 0 (some touchW) (some elPaused) rectW
      = some (5, true) := by
    norm_num [onTouchMove, tsW, touchW, rectW, elPaused, numTruthy]
  exact ⟨⟨rfl, by norm_num, by norm_num [rectW], hres⟩,
    scrub_seek_in_bounds tsW true 0 touchW elPaused rectW 10 5 true rfl (by norm_num)
      (by norm_num [rectW]) hres⟩

/-! ### C9 -/

/-- C9 (amended): after the first interaction has been consumed
(`isMuted` already `false`), toggling a sourced element twice restores
`UserPaused` to its original value *provided* the recorded flag agrees
with the element's actual paused state; the two clicks set the flag to
the element's initial paused state, so a mismatched start is not
restored (see the counterexample). -/
theorem toggle_twice_restores (s : FeedState) (i : Nat) (v : VideoItem) (el : MediaEl)
    (hm : s.isMuted = false)
    (hv : s.videos[i]? = some v)
    (he : s.els[i]? = some (some el))
    (hsrc : strTruthy el.currentSrc = true)
    (hmatch : recGet s.userPaused v.id = el.paused) :
    recGet (clickAt (clickAt s i) i).userPaused v.id = recGet s.userPaused v.id := by
  have hlen : i < s.els.length := (List.getElem?_eq_some.mp he).1
  have hset : ∀ (x : MediaEl), (s.els.set i (some x))[i]? = some (some x) := by
    intro x
    rw [List.getElem?_set]
    simp [hlen]
  cases hp : el.paused with
  | true =>
    have h1 : clickAt s i
        = { s with
            els := s.els.set i (some (playEl el)),
            userPaused := recSet s.userPaused v.id false } := by
      unfold clickAt handleVideoClick
      simp [hv, he, hm, hp, hsrc]
    have h2 : clickAt
        { s with
          els := s.els.set i (some (playEl el)),
          userPaused := recSet s.userPaused v.id false } i
        = { s with
            els := (s.els.set i (some (playEl el))).set i (some (pauseEl (playEl el))),
            userPaused := recSet (recSet s.userPaused v.id false) v.id true } := by
      unfold clickAt handleVideoClick
      simp [hv, hm, hset, playEl, pauseEl]
    rw [h1, h2]
    show recGet (recSet (recSet s.userPaused v.id false) v.id true) v.id
      = recGet s.userPaused v.id
    rw [recGet_recSet, if_pos rfl, hmatch, hp]
  | false =>
    have h1 : clickAt s i
        = { s with
            els := s.els.set i (some (pauseEl el)),
            userPaused := recSet s.userPaused v.id true } := by
      unfold clickAt handleVideoClick
      simp [hv, he, hm, hp]
    have h2 : clickAt
        { s with
          els := s.els.set i (some (pauseEl el)),
          userPaused := recSet s.userPaused v.id true } i
        = { s with
            els := (s.els.set i (some (pauseEl el))).set i (some (playEl (pauseEl el))),
            userPaused := recSet (recSet s.userPaused v.id true) v.id false } := by
      unfold clickAt handleVideoClick
      simp [hv, hm, hset, pauseEl, playEl, strTruthy]
      cases hc : el.currentSrc with
      | none => rw [hc] at hsrc; cases hsrc
      | some u =>
        rw [hc] at hsrc
        simp only [strTruthy] at hsrc
        simp [of_decide_eq_true hsrc]
    rw [h1, h2]
    show recGet (recSet (recSet s.userPaused v.id true) v.id false) v.id
      = recGet s.userPaused v.id
    rw [recGet_recSet, if_pos rfl, hmatch, hp]

/-- A one-item state, first interaction consumed, element paused with a
source, no recorded `UserPaused` flag. -/
def stateC9 : FeedState :=
  { videos := [itemA], els := [some elPaused], loaded := [("a", true)],
    userPaused := [], lastActiveId := some "a", activeVideoId := some "a",
    isMuted := false }

/-- The same state with `UserPaused` matching the element's paused
state. -/
def stateC9m : FeedState :=
  { videos := [itemA], els := [some elPaused], loaded := [("a", true)],
    userPaused := [("a", true)], lastActiveId := some "a", activeVideoId := some "a",
    isMuted := false }

/-- C9 counterexample: on an unmuted, loaded, sourced item whose
element is paused while `UserPaused` is (implicitly) `false`, two
toggles leave `UserPaused = true` — not the original value. -/
theorem toggle_twice_not_involutive :
    stateC9.isMuted = false
    ∧ recGet stateC9.loaded "a" = true
    ∧ strTruthy elPaused.currentSrc = true
    ∧ recGet stateC9.userPaused "a" = false
    ∧ recGet (clickAt (clickAt stateC9 0) 0).userPaused "a" = true := by decide

/-- C9 witness: with the flag agreeing with the paused element, two
toggles restore `UserPaused = true`. -/
theorem toggle_twice_restores_witness :
    (stateC9m.isMuted = false
      ∧ stateC9m.videos[0]? = some itemA
      ∧ stateC9m.els[0]? = some (some elPaused)
      ∧ strTruthy elPaused.currentSrc = true
      ∧ recGet stateC9m.userPaused itemA.id = elPaused.paused)
    ∧ recGet (clickAt (clickAt stateC9m 0) 0).userPaused itemA.id
        = recGet stateC9m.userPaused itemA.id :=
  ⟨⟨rfl, by decide, by decide, by decide, by decide⟩,
    toggle_twice_restores stateC9m 0 itemA elPaused rfl (by decide) (by decide)
      (by decide) (by decide)⟩

/-! ### C3 -/

theorem richClick_isMuted_mono (t : RichState) (jid : String) (j : Nat)
    (h : t.isMuted = false) : (handleVideoClickRich t jid j).isMuted = false := by
  unfold handleVideoClickRich
  repeat' split
  all_goals first | rfl | exact h

theorem runRichClicks_isMuted_mono (t : RichState) (evs : List (String × Nat))
    (h : t.isMuted = false) : (runRichClicks t evs).isMuted = false := by
  induction evs generalizing t with
  | nil => exact h
  | cons ev rest ih => exact ih _ (richClick_isMuted_mono t ev.1 ev.2 h)

/-- C3: from the mount state of the richer variant (mute flag on, no
interaction recorded), a first click on a present element clears the
global mute flag and records the interaction; it never pauses a playing
element and plays a paused sourced one; once the interaction is
recorded, every further click leaves the mute flag untouched; and no
click ever turns the mute flag back on — so through the click path the
flag becomes `false` exactly once. -/
theorem first_click_unmutes_once (els0 : List (Option MediaEl)) (id : String) (i : Nat)
    (el : MediaEl) (hel : els0[i]? = some (some el)) :
    (handleVideoClickRich (richInit els0) id i).isMuted = false
    ∧ (handleVideoClickRich (richInit els0) id i).hasInteracted = true
    ∧ (el.paused = false →
        (handleVideoClickRich (richInit els0) id i).els[i]? = some (some el))
    ∧ (el.paused = true → strTruthy el.currentSrc = true →
        (handleVideoClickRich (richInit els0) id i).els[i]? = some (some (playEl el)))
    ∧ (∀ t : RichState, t.hasInteracted = true → ∀ (jid : String) (j : Nat),
        (handleVideoClickRich t jid j).isMuted = t.isMuted
        ∧ (handleVideoClickRich t jid j).hasInteracted = true)
    ∧ (∀ t : RichState, t.isMuted = false → ∀ evs : List (String × Nat),
        (runRichClicks t evs).isMuted = false) := by
  have hlen : i < els0.length := (List.getElem?_eq_some.mp hel).1
  refine ⟨?_, ?_, ?_, ?_, ?_, ?_⟩
  · unfold handleVideoClickRich
    simp [richInit, hel]
    split <;> rfl
  · unfold handleVideoClickRich
    simp [richInit, hel]
    split <;> rfl
  · intro hp
    unfold handleVideoClickRich
    simp [richInit, hel, hp]
  · intro hp hsrc
    unfold handleVideoClickRich
    simp [richInit, hel, hp, hsrc, List.getElem?_set, hlen]
  · intro t ht jid j
    unfold handleVideoClickRich
    cases hj : t.els[j]? with
    | none => exact ⟨rfl, ht⟩
    | some oel =>
      cases oel with
      | none => exact ⟨rfl, ht⟩
      | some el2 =>
        dsimp only
        rw [if_neg (by simp [ht])]
        repeat' split
        all_goals exact ⟨rfl, ht⟩
  · intro t ht evs
    exact runRichClicks_isMuted_mono t evs ht

/-- C3 witness: instantiated at a one-element list holding a paused,
sourced element. -/
theorem first_click_unmutes_once_witness :
    ([some elPaused][0]? = some (some elPaused))
    ∧ ((handleVideoClickRich (richInit [some elPaused]) "a" 0).isMuted = false
      ∧ (handleVideoClickRich (richInit [some elPaused]) "a" 0).hasInteracted = true
      ∧ (elPaused.paused = false →
          (handleVideoClickRich (richInit [some elPaused]) "a" 0).els[0]?
            = some (some elPaused))
      ∧ (elPaused.paused = true → strTruthy elPaused.currentSrc = true →
          (handleVideoClickRich (richInit [some elPaused]) "a" 0).els[0]?
            = some (some (playEl elPaused)))
      ∧ (∀ t : RichState, t.hasInteracted = true → ∀ (jid : String) (j : Nat),
          (handleVideoClickRich t jid j).isMuted = t.isMuted
          ∧ (handleVideoClickRich t jid j).hasInteracted = true)
      ∧ (∀ t : RichState, t.isMuted = false → ∀ evs : List (String × Nat),
          (runRichClicks t evs).isMuted = false)) :=
  ⟨by decide, first_click_unmutes_once [some elPaused] "a" 0 elPaused (by decide)⟩

/-! ### The reconciliation at the active index -/

theorem pauseOthers_getElem (videos : List VideoItem) (activeId : String) :
    ∀ (els : List (Option MediaEl)) (k i : Nat),
      (pauseOthers videos activeId k els)[i]?
        = (els[i]?).map
            (fun oel =>
              match oel with
              | none => none
              | some v =>
                match videos[k + i]? with
                | some vd =>
                  if vd.id ≠ "" ∧ vd.id ≠ activeId then some (pauseResetEl v) else some v
                | none => some v) := by
  intro els
  induction els with
  | nil => intro k i; simp [pauseOthers]
  | cons oel rest ih =>
    intro k i
    cases i with
    | zero => simp [pauseOthers]
    | succ n =>
      simp only [pauseOthers, List.getElem?_cons_succ]
      rw [ih (k + 1) n]
      have hidx : k + 1 + n = k + (n + 1) := by omega
      rw [hidx]

theorem pauseOthers_length (videos : List VideoItem) (activeId : String) :
    ∀ (els : List (Option MediaEl)) (k : Nat),
      (pauseOthers videos activeId k els).length = els.length := by
  intro els
  induction els with
  | nil => intro k; rfl
  | cons oel rest ih => intro k; simp [pauseOthers, ih]

/-- What one reconciliation with active id `activeId` does at the active
position `K` (ids duplicate-free): the `userPaused` record is cleared of
a stale flag exactly when the id changed, and the element at `K` is
played (muted synced) exactly when the *pre-reconciliation* `userPaused`
map did not flag it — otherwise it is left untouched. -/
theorem handleActive_active_el (s : FeedState) (activeId : String) (K : Nat)
    (vK : VideoItem) (el : MediaEl)
    (hnodup : (s.videos.map (fun v => v.id)).Nodup)
    (hK : s.videos[K]? = some vK) (hvid : vK.id = activeId)
    (hel : s.els[K]? = some (some el)) :
    ((handleActive s activeId).els[K]?
      = if recGet s.userPaused activeId = false then
          (if strTruthy el.currentSrc = true then
            some (some (playEl { el with muted := s.isMuted }))
          else some (some ({ el with muted := s.isMuted })))
        else some (some el))
    ∧ (handleActive s activeId).userPaused
        = (if s.lastActiveId ≠ some activeId then
            (if recGet s.userPaused activeId = false then s.userPaused
             else recDelete s.userPaused activeId)
          else s.userPaused)
    ∧ (handleActive s activeId).lastActiveId = some activeId
    ∧ (handleActive s activeId).activeVideoId = some activeId
    ∧ (handleActive s activeId).videos = s.videos
    ∧ (handleActive s activeId).isMuted = s.isMuted
    ∧ (handleActive s activeId).els.length = s.els.length := by
  have hKlen : K < s.els.length := (List.getElem?_eq_some.mp hel).1
  have hai : activeIndexOf s.videos activeId = (K : Int) := by
    rw [← hvid]
    exact activeIndexOf_eq s.videos hnodup K vK hK
  have hguard : ¬(vK.id ≠ "" ∧ vK.id ≠ activeId) := fun h => h.2 hvid
  have hels1 : (pauseOthers s.videos activeId 0 s.els)[K]? = some (some el) := by
    rw [pauseOthers_getElem, hel]
    simp only [Nat.zero_add, Option.map_some']
    rw [hK]
    simp [hguard]
  have hlen1 : (pauseOthers s.videos activeId 0 s.els).length = s.els.length :=
    pauseOthers_length s.videos activeId s.els 0
  have h0 : ¬((K : Int) < 0) := not_lt.mpr (Int.natCast_nonneg K)
  unfold handleActive
  refine ⟨?_, rfl, rfl, rfl, rfl, rfl, ?_⟩
  · simp only [hai, h0, if_false, Int.toNat_natCast, hels1]
    by_cases hup : recGet s.userPaused activeId = false
    · by_cases hsrc : strTruthy el.currentSrc = true
      · simp only [if_pos hup, if_pos hsrc]
        rw [List.getElem?_set]
        simp [hlen1, hKlen]
      · simp only [if_pos hup, if_neg hsrc]
        rw [List.getElem?_set]
        simp [hlen1, hKlen]
    · simp only [if_neg hup]
      exact hels1
  · simp only [hai, h0, if_false, Int.toNat_natCast, hels1]
    by_cases hup : recGet s.userPaused activeId = false
    · by_cases hsrc : strTruthy el.currentSrc = true
      · simp only [if_pos hup, if_pos hsrc, List.length_set]
        exact hlen1
      · simp only [if_pos hup, if_neg hsrc, List.length_set]
        exact hlen1
    · simp only [if_neg hup]
      exact hlen1

/-! ### C5 -/

/-- C5 (amended): when the active id changes to an item whose
`UserPaused` flag was recorded `true`, that reconciliation clears the
stale flag but does *not* attempt autoplay — its play guard reads the
`userPaused` map from before the update — leaving the active element
untouched; the autoplay attempt happens on the next reconciliation,
where the cleared flag permits the play call. -/
theorem cleared_flag_plays_next_pass (s : FeedState) (entries : List IEntry)
    (activeId : String) (K : Nat) (vK : VideoItem) (el : MediaEl)
    (hpick : pickActive s.videos entries = some activeId)
    (hid : activeId ≠ "")
    (hnodup : (s.videos.map (fun v => v.id)).Nodup)
    (hK : s.videos[K]? = some vK) (hvid : vK.id = activeId)
    (hel : s.els[K]? = some (some el))
    (hsrc : strTruthy el.currentSrc = true)
    (hup : recGet s.userPaused activeId = true)
    (hnew : s.lastActiveId ≠ some activeId) :
    recGet (handleIntersection s entries).userPaused activeId = false
    ∧ (handleIntersection s entries).els[K]? = some (some el)
    ∧ (handleIntersection (handleIntersection s entries) entries).els[K]?
        = some (some (playEl
            { el with muted := (handleIntersection s entries).isMuted })) := by
  have hI : handleIntersection s entries = handleActive s activeId := by
    unfold handleIntersection
    rw [hpick]
    dsimp only
    rw [if_neg hid]
  obtain ⟨hels, hupd, hlast, _, hvideos, hmuted, _⟩ :=
    handleActive_active_el s activeId K vK el hnodup hK hvid hel
  have hup_ne : ¬(recGet s.userPaused activeId = false) := by
    rw [hup]
    exact fun h => absurd h (by simp)
  have hcleared : recGet (handleActive s activeId).userPaused activeId = false := by
    rw [hupd, if_pos hnew, if_neg hup_ne, recGet_recDelete, if_pos rfl]
  have huntouched : (handleActive s activeId).els[K]? = some (some el) := by
    rw [hels, if_neg hup_ne]
  rw [hI]
  refine ⟨hcleared, huntouched, ?_⟩
  have h1 : handleIntersection (handleActive s activeId) entries
      = handleActive (handleActive s activeId) activeId := by
    unfold handleIntersection
    rw [hvideos, hpick]
    dsimp only
    rw [if_neg hid]
  rw [h1]
  obtain ⟨hels2, _, _, _, _, _, _⟩ :=
    handleActive_active_el (handleActive s activeId) activeId K vK el
      (by rw [hvideos]; exact hnodup)
      (by rw [hvideos]; exact hK)
      hvid huntouched
  rw [hels2, if_pos hcleared, if_pos hsrc]

/-- The failing configuration: item `"a"` about to become newly active
while `UserPaused["a"] = true` and the element is paused with a
source. -/
def stateC5 : FeedState :=
  { videos := [itemA, itemB], els := [some elPaused, some elPaused],
    loaded := [("a", true), ("b", true)], userPaused := [("a", true)],
    lastActiveId := some "b", activeVideoId := some "b", isMuted := false }

/-- C5 counterexample: the reconciliation that makes `"a"` newly active
clears its stale `UserPaused` flag, yet leaves the sourced element
entirely untouched and paused — no autoplay attempt happens in that same
reconciliation. -/
theorem newly_active_no_play_same_pass :
    recGet stateC5.userPaused "a" = true
    ∧ strTruthy elPaused.currentSrc = true
    ∧ elPaused.paused = true
    ∧ recGet (handleIntersection stateC5 [entryHi]).userPaused "a" = false
    ∧ (handleIntersection stateC5 [entryHi]).els[0]? = some (some elPaused) := by
  decide

/-- C5 witness: at the concrete failing configuration, the first
reconciliation clears the flag without touching the element and the
second one plays it. -/
theorem cleared_flag_plays_next_pass_witness :
    (pickActive stateC5.videos [entryHi] = some "a"
      ∧ recGet stateC5.userPaused "a" = true
      ∧ stateC5.lastActiveId ≠ some "a")
    ∧ (recGet (handleIntersection stateC5 [entryHi]).userPaused "a" = false
      ∧ (handleIntersection stateC5 [entryHi]).els[0]? = some (some elPaused)
      ∧ (handleIntersection (handleIntersection stateC5 [entryHi]) [entryHi]).els[0]?
          = some (some (playEl
              { elPaused with muted := (handleIntersection stateC5 [entryHi]).isMuted }))) :=
  ⟨⟨by decide, by decide, by decide⟩,
    cleared_flag_plays_next_pass stateC5 [entryHi] "a" 0 itemA elPaused (by decide)
      (by decide) (by decide) (by decide) (by decide) (by decide) (by decide)
      (by decide) (by decide)⟩

/-! ### C1 -/

/-- The element at index `i` exists and is playing. -/
def playingAtB (els : List (Option MediaEl)) (i : Nat) : Bool :=
  match els[i]? with
  | some (some el) => !el.paused
  | _ => false

/-- Every element of the ref array is paused (or absent). -/
def allPausedB (els : List (Option MediaEl)) : Bool :=
  els.all
    (fun oel =>
      match oel with
      | some el => el.paused
      | none => true)

/-- The playback invariant: any playing element sits at the index of the
current active id. -/
def PlayOnlyActive (s : FeedState) : Prop :=
  ∀ i : Nat, playingAtB s.els i = true →
    ∃ id, s.activeVideoId = some id
      ∧ s.videos.findIdx? (fun v => v.id == id) = some i

/-- Well-formedness carried along a run: refs aligned with the item
list, ids nonempty (JS-truthy) and duplicate-free (as the page
deduplicates them). -/
def GoodState (s : FeedState) : Prop :=
  s.els.length = s.videos.length
  ∧ (∀ v ∈ s.videos, v.id ≠ "")
  ∧ (s.videos.map (fun v => v.id)).Nodup

theorem pauseAllPlaying_not_playing (els : List (Option MediaEl)) (i : Nat) :
    playingAtB (pauseAllPlaying els) i = false := by
  unfold playingAtB pauseAllPlaying
  rw [List.getElem?_map]
  cases he : els[i]? with
  | none => rfl
  | some oel =>
    cases oel with
    | none => rfl
    | some el =>
      by_cases hp : el.paused = false <;> simp [pauseEl, hp]

theorem pauseOthers_playing (videos : List VideoItem) (a : String)
    (els : List (Option MediaEl)) (i : Nat) (x : MediaEl)
    (hlen : els.length = videos.length)
    (hids : ∀ v ∈ videos, v.id ≠ "")
    (h : (pauseOthers videos a 0 els)[i]? = some (some x))
    (hx : x.paused = false) :
    ∃ vd, videos[i]? = some vd ∧ vd.id = a := by
  rw [pauseOthers_getElem] at h
  cases he : els[i]? with
  | none => rw [he] at h; cases h
  | some oel =>
    rw [he] at h
    simp only [Option.map_some', Option.some.injEq] at h
    cases oel with
    | none => cases h
    | some v =>
      simp only [Nat.zero_add] at h
      cases hv : videos[i]? with
      | none =>
        have hi : i < els.length := (List.getElem?_eq_some.mp he).1
        rw [hlen] at hi
        rw [List.getElem?_eq_none_iff] at hv
        omega
      | some vd =>
        rw [hv] at h
        dsimp only at h
        by_cases hg : vd.id ≠ "" ∧ vd.id ≠ a
        · rw [if_pos hg] at h
          injection h with h2
          rw [← h2] at hx
          simp [pauseResetEl] at hx
        · push_neg at hg
          have hmem : vd ∈ videos := by
            obtain ⟨hlt, hget⟩ := List.getElem?_eq_some.mp hv
            exact hget ▸ List.getElem_mem hlt
          exact ⟨vd, rfl, hg (hids vd hmem)⟩

theorem handleActive_frame (s : FeedState) (a : String) :
    (handleActive s a).videos = s.videos
    ∧ (handleActive s a).isMuted = s.isMuted
    ∧ (handleActive s a).activeVideoId = some a
    ∧ (handleActive s a).els.length = s.els.length := by
  unfold handleActive
  refine ⟨rfl, rfl, rfl, ?_⟩
  dsimp only
  by_cases hA : activeIndexOf s.videos a < 0
  · rw [if_pos hA]
    exact pauseOthers_length s.videos a s.els 0
  · rw [if_neg hA]
    cases hm : (pauseOthers s.videos a 0 s.els)[(activeIndexOf s.videos a).toNat]? with
    | none => exact pauseOthers_length s.videos a s.els 0
    | some oel =>
      cases oel with
      | none => exact pauseOthers_length s.videos a s.els 0
      | some el =>
        dsimp only
        by_cases hup : recGet s.userPaused a = false
        · by_cases hsrc : strTruthy el.currentSrc = true
          · rw [if_pos hup, if_pos hsrc, List.length_set]
            exact pauseOthers_length s.videos a s.els 0
          · rw [if_pos hup, if_neg hsrc, List.length_set]
            exact pauseOthers_length s.videos a s.els 0
        · rw [if_neg hup]
          exact pauseOthers_length s.videos a s.els 0

theorem handleIntersection_frame (s : FeedState) (entries : List IEntry) :
    (handleIntersection s entries).videos = s.videos
    ∧ (handleIntersection s entries).els.length = s.els.length := by
  unfold handleIntersection
  cases hp : pickActive s.videos entries with
  | none => exact ⟨rfl, by simp [pauseAllPlaying]⟩
  | some a =>
    dsimp only
    by_cases ha : a = ""
    · rw [if_pos ha]
      exact ⟨rfl, by simp [pauseAllPlaying]⟩
    · rw [if_neg ha]
      exact ⟨(handleActive_frame s a).1, (handleActive_frame s a).2.2.2⟩

theorem handleVideoClick_els_length (s : FeedState) (id : String) (i : Nat) :
    (handleVideoClick s id i).els.length = s.els.length := by
  unfold handleVideoClick
  repeat' split
  all_goals simp [List.length_set]

theorem handleVideoClick_els_other (s : FeedState) (id : String) (a i : Nat)
    (hia : a ≠ i) : (handleVideoClick s id a).els[i]? = s.els[i]? := by
  unfold handleVideoClick
  repeat' split
  all_goals first
    | rfl
    | exact List.getElem?_set_ne hia

theorem clickActive_frame (s : FeedState) :
    (clickActive s).videos = s.videos ∧ (clickActive s).els.length = s.els.length := by
  unfold clickActive
  repeat' split
  all_goals first
    | exact ⟨rfl, rfl⟩
    | exact ⟨(handleVideoClick_frame ..).2.1, handleVideoClick_els_length ..⟩

theorem handleActive_playOnly (s : FeedState) (a : String)
    (hlen : s.els.length = s.videos.length)
    (hids : ∀ v ∈ s.videos, v.id ≠ "")
    (hnodup : (s.videos.map (fun v => v.id)).Nodup) :
    PlayOnlyActive (handleActive s a) := by
  intro i hplay
  refine ⟨a, (handleActive_frame s a).2.2.1, ?_⟩
  rw [(handleActive_frame s a).1]
  unfold playingAtB at hplay
  cases h2 : (handleActive s a).els[i]? with
  | none => rw [h2] at hplay; cases hplay
  | some oel =>
    rw [h2] at hplay
    cases oel with
    | none => cases hplay
    | some x =>
      have hx : x.paused = false := by simpa using hplay
      clear hplay
      unfold handleActive at h2
      dsimp only at h2
      cases hA : s.videos.findIdx? (fun v => v.id == a) with
      | none =>
        exfalso
        have hAi : activeIndexOf s.videos a = -1 := by
          unfold activeIndexOf
          rw [hA]
        rw [hAi, if_pos (by norm_num : (-1 : Int) < 0)] at h2
        obtain ⟨vd, hv, hvda⟩ := pauseOthers_playing s.videos a s.els i x hlen hids h2 hx
        have hmem : vd ∈ s.videos := by
          obtain ⟨hlt, hget⟩ := List.getElem?_eq_some.mp hv
          exact hget ▸ List.getElem_mem hlt
        have := (List.findIdx?_eq_none_iff.mp hA) vd hmem
        rw [hvda] at this
        simp at this
      | some n =>
        have hAi : activeIndexOf s.videos a = (n : Int) := by
          unfold activeIndexOf
          rw [hA]
        rw [hAi, if_neg (not_lt.mpr (Int.natCast_nonneg n)), Int.toNat_natCast] at h2
        by_cases hin : i = n
        · rw [hin]
        · have h2i : (pauseOthers s.videos a 0 s.els)[i]? = some (some x) := by
            cases hm : (pauseOthers s.videos a 0 s.els)[n]? with
            | none =>
              rw [hm] at h2
              exact h2
            | some oel2 =>
              rw [hm] at h2
              cases oel2 with
              | none => exact h2
              | some el2 =>
                dsimp only at h2
                by_cases hup : recGet s.userPaused a = false
                · by_cases hsrc : strTruthy el2.currentSrc = true
                  · rw [if_pos hup, if_pos hsrc,
                      List.getElem?_set_ne (fun hcontra => hin hcontra.symm)] at h2
                    exact h2
                  · rw [if_pos hup, if_neg hsrc,
                      List.getElem?_set_ne (fun hcontra => hin hcontra.symm)] at h2
                    exact h2
                · rw [if_neg hup] at h2
                  exact h2
          obtain ⟨vd, hv, hvda⟩ :=
            pauseOthers_playing s.videos a s.els i x hlen hids h2i hx
          have hidx := findIdx_of_nodup s.videos hnodup i vd hv
          rw [hvda] at hidx
          rw [← hA]
          exact hidx

theorem handleIntersection_playOnly (s : FeedState) (entries : List IEntry)
    (hgood : GoodState s) : PlayOnlyActive (handleIntersection s entries) := by
  obtain ⟨hlen, hids, hnodup⟩ := hgood
  unfold handleIntersection
  cases hp : pickActive s.videos entries with
  | none =>
    intro i hplay
    rw [pauseAllPlaying_not_playing] at hplay
    cases hplay
  | some a =>
    dsimp only
    by_cases ha : a = ""
    · rw [if_pos ha]
      intro i hplay
      rw [pauseAllPlaying_not_playing] at hplay
      cases hplay
    · rw [if_neg ha]
      exact handleActive_playOnly s a hlen hids hnodup

theorem clickActive_playOnly (s : FeedState) (hinv : PlayOnlyActive s) :
    PlayOnlyActive (clickActive s) := by
  unfold clickActive
  cases hid : s.activeVideoId with
  | none => exact hinv
  | some id =>
    dsimp only
    cases hA : s.videos.findIdx? (fun v => v.id == id) with
    | none => exact hinv
    | some a =>
      dsimp only
      cases hels : s.els[a]? with
      | none => exact hinv
      | some oel =>
        cases oel with
        | none => exact hinv
        | some el0 =>
          intro i hplay
          by_cases hia : i = a
          · subst hia
            exact ⟨id, (handleVideoClick_frame s id i).2.2.1 ▸ hid,
              (handleVideoClick_frame s id i).2.1 ▸ hA⟩
          · have hplay2 : playingAtB s.els i = true := by
              unfold playingAtB at hplay ⊢
              rw [handleVideoClick_els_other s id a i (fun hcontra => hia hcontra.symm)]
                at hplay
              exact hplay
            obtain ⟨id0, hact, hidx⟩ := hinv i hplay2
            exact ⟨id0, (handleVideoClick_frame s id a).2.2.1 ▸ hact,
              (handleVideoClick_frame s id a).2.1 ▸ hidx⟩

theorem step_playOnly (s : FeedState) (e : Event) (hgood : GoodState s)
    (hinv : PlayOnlyActive s) : PlayOnlyActive (step s e) := by
  cases e with
  | vis entries => exact handleIntersection_playOnly s entries hgood
  | clickActiveItem => exact clickActive_playOnly s hinv

theorem step_good (s : FeedState) (e : Event) (hgood : GoodState s) :
    GoodState (step s e) := by
  obtain ⟨hlen, hids, hnodup⟩ := hgood
  cases e with
  | vis entries =>
    obtain ⟨hv, hl⟩ := handleIntersection_frame s entries
    show GoodState (handleIntersection s entries)
    exact ⟨by rw [hl, hv]; exact hlen, by rw [hv]; exact hids, by rw [hv]; exact hnodup⟩
  | clickActiveItem =>
    obtain ⟨hv, hl⟩ := clickActive_frame s
    show GoodState (clickActive s)
    exact ⟨by rw [hl, hv]; exact hlen, by rw [hv]; exact hids, by rw [hv]; exact hnodup⟩

theorem run_playOnly (s : FeedState) (evs : List Event) (hgood : GoodState s)
    (hinv : PlayOnlyActive s) : PlayOnlyActive (run s evs) := by
  induction evs generalizing s with
  | nil => exact hinv
  | cons e rest ih =>
    exact ih (step s e) (step_good s e hgood) (step_playOnly s e hgood hinv)

theorem allPaused_playOnly (s : FeedState) (h : allPausedB s.els = true) :
    PlayOnlyActive s := by
  intro i hplay
  exfalso
  unfold allPausedB at h
  unfold playingAtB at hplay
  cases he : s.els[i]? with
  | none => rw [he] at hplay; cases hplay
  | some oel =>
    rw [he] at hplay
    cases oel with
    | none => cases hplay
    | some el =>
      have hmem : some el ∈ s.els := by
        obtain ⟨hlt, hget⟩ := List.getElem?_eq_some.mp he
        exact hget ▸ List.getElem_mem hlt
      have hall := (List.all_eq_true.mp h) (some el) hmem
      dsimp only at hall
      dsimp only at hplay
      rw [hall] at hplay
      cases hplay

/-- C1 (amended): starting from a mount state with every element paused
(refs aligned with the item list, ids nonempty and duplicate-free), over
any sequence of visibility events and playback-control interactions on
the *active* item, at most one media element is ever playing: every
reconciliation pauses all non-active elements before playing the active
one, the no-candidate branch pauses every playing element, and an
active-item click touches only the active element.  A click on a
non-active element breaks the invariant (see the counterexample), so the
restriction to active-item interactions is necessary. -/
theorem at_most_one_playing_run (s0 : FeedState) (evs : List Event)
    (hlen : s0.els.length = s0.videos.length)
    (hids : ∀ v ∈ s0.videos, v.id ≠ "")
    (hnodup : (s0.videos.map (fun v => v.id)).Nodup)
    (hstart : allPausedB s0.els = true) :
    ∀ i j : Nat, playingAtB (run s0 evs).els i = true →
      playingAtB (run s0 evs).els j = true → i = j := by
  have hinv := run_playOnly s0 evs ⟨hlen, hids, hnodup⟩ (allPaused_playOnly s0 hstart)
  intro i j hi hj
  obtain ⟨idi, hai, hii⟩ := hinv i hi
  obtain ⟨idj, haj, hjj⟩ := hinv j hj
  rw [hai] at haj
  injection haj with he
  rw [← he] at hjj
  rw [hii] at hjj
  injection hjj

/-- C1 witness: a concrete two-item run — one visibility event followed
by an active-item click — keeps the at-most-one-playing property. -/
theorem at_most_one_playing_run_witness :
    (stateC6.els.length = stateC6.videos.length
      ∧ (∀ v ∈ stateC6.videos, v.id ≠ "")
      ∧ (stateC6.videos.map (fun v => v.id)).Nodup
      ∧ allPausedB stateC6.els = true)
    ∧ (∀ i j : Nat,
        playingAtB (run stateC6 [Event.vis [entryHi], Event.clickActiveItem]).els i
          = true →
        playingAtB (run stateC6 [Event.vis [entryHi], Event.clickActiveItem]).els j
          = true → i = j) :=
  ⟨⟨by decide, by decide, by decide, by decide⟩,
    at_most_one_playing_run stateC6 [Event.vis [entryHi], Event.clickActiveItem]
      (by decide) (by decide) (by decide) (by decide)⟩

/-- A two-item state, both elements sourced and paused, mute already
consumed. -/
def stateC1 : FeedState :=
  { videos := [itemA, itemB], els := [some elPaused, some elPaused],
    loaded := [("a", true), ("b", true)], userPaused := [],
    lastActiveId := none, activeVideoId := none, isMuted := false }

/-- C1 counterexample: after a visibility event makes item 0 active and
playing, clicking the non-active slide 1 — whose preloaded adjacent
element has a resolved source — starts a second playback, so two media
elements are playing at the same instant. -/
theorem nonactive_click_two_playing :
    playingAtB (clickAt (handleIntersection stateC1 [entryHi]) 1).els 0 = true
    ∧ playingAtB (clickAt (handleIntersection stateC1 [entryHi]) 1).els 1 = true := by
  decide

end Xd
